import Mathlib

/-!
Verification of the forex news bot's event ingestion, caching and
trigger-window evaluation logic (src/bot.py), via a shallow embedding.

Time is modelled in seconds as `Int` (Python `datetime`/`timedelta`
arithmetic on instants).  The network and the ICS parser are external
collaborators: the environment hands `get_red_news` a `FetchOutcome`
describing what the single `requests.get` + `Calendar.from_ical` attempt
of that call would yield (`success (some doc)` = HTTP 2xx and a parsed
calendar, `success none` = HTTP 2xx but `Calendar.from_ical` raised,
`rateLimited` = status 429, `transportError` = any other requests
exception / non-2xx status).
-/

namespace Bot

/-- A normalized event: `(event_time_utc, summary)` tuple from `get_red_news`. -/
structure Event where
  occursAt : Int
  summary : String
deriving DecidableEq, Repr

/-- The `DTSTART` value of a VEVENT.  A `datetime` value is a wall-clock
reading split as `day * 86400 + timeOfDay` seconds together with its
`tzinfo` utc-offset (`none` = naive); a `date` value carries only the day. -/
inductive DtStart where
  | dateTime (day : Int) (timeOfDay : Int) (tzOffset : Option Int)
  | dateOnly (day : Int)
deriving DecidableEq, Repr

/-- A parsed calendar component (record of `cal.walk()`), with the string
defaults of `component.get` already applied. -/
structure Component where
  name : String
  description : String
  summary : String
  dtstart : DtStart
deriving DecidableEq, Repr

/-- The module-level cache globals `LAST_FETCH` / `CACHED_EVENTS`. -/
structure CacheState where
  lastFetch : Option Int
  cachedEvents : List Event
deriving DecidableEq, Repr

/-- Outcome of the fetch+parse attempt a non-cached call would make. -/
inductive FetchOutcome where
  | rateLimited
  | transportError
  | success (parsed : Option (List Component))
deriving DecidableEq, Repr

/-- `CACHE_TTL_MINUTES = 15`. -/
def CACHE_TTL_MINUTES : Int := 15

/-- The hardcoded alert channel id. -/
def CHANNEL_ID : Int := 1441268899369713684

/-- Does `pat` begin the list `hay`? -/
def beginsWith : List Char → List Char → Bool
  | [], _ => true
  | _ :: _, [] => false
  | p :: ps, h :: hs => p = h && beginsWith ps hs

/-- Does `pat` occur contiguously anywhere in `hay`? -/
def hasSub (pat : List Char) : List Char → Bool
  | [] => beginsWith pat []
  | h :: hs => beginsWith pat (h :: hs) || hasSub pat hs

/-- Python's `pat in hay` substring test on strings. -/
def strContains (hay pat : String) : Bool :=
  hasSub pat.toList hay.toList

/-- Python's `str.lower()`, per-character (ASCII range, as the command word
needs). -/
def strToLower (s : String) : String :=
  String.mk (s.toList.map Char.toLower)

/-- Python's `str.startswith(pre)`. -/
def strStartsWith (s pre : String) : Bool :=
  beginsWith pre.toList s.toList

/-- Lines 102–109: extract the event instant from `DTSTART`.
An aware `datetime` denotes the instant `wall - utcoffset`; a naive one is
stamped with `tzinfo=pytz.UTC` (so its wall reading is taken as UTC); a bare
`date` becomes midnight of that day stamped as UTC. -/
def extractStart : DtStart → Int
  | .dateTime day tod (some off) => day * 86400 + tod - off
  | .dateTime day tod none => day * 86400 + tod
  | .dateOnly day => day * 86400

/-- Body of the `for component in cal.walk()` loop (lines 90–112): keep only
VEVENTs whose description contains one of the two high-impact markers and
whose start is strictly in the future. -/
def processComponent (now : Int) (c : Component) : Option Event :=
  if c.name ≠ "VEVENT" then
    none
  else if !(strContains c.description "Impact: High")
       && !(strContains c.description "High Impact Expected") then
    none
  else
    let t := extractStart c.dtstart
    if now < t then some ⟨t, c.summary⟩ else none

/-- The filter/normalize pass over a parsed calendar document. -/
def normalize (now : Int) (doc : List Component) : List Event :=
  doc.filterMap (processComponent now)

/-- The freshness guard of line 52:
`LAST_FETCH is not None and (now_utc - LAST_FETCH) < timedelta(minutes=CACHE_TTL_MINUTES)`. -/
def cacheFresh (s : CacheState) (now : Int) : Bool :=
  match s.lastFetch with
  | none => false
  | some t => decide (now - t < CACHE_TTL_MINUTES * 60)

/-- Result of one `get_red_news()` call: the returned list, the cache
globals after the call, and whether control reached the refresh attempt
(line 56 onward) rather than the fresh-cache early return. -/
structure GetResult where
  events : List Event
  state : CacheState
  attemptedFetch : Bool
deriving DecidableEq, Repr

/-- `get_red_news()` (lines 41–123), with `now` the call's `datetime.now(pytz.UTC)`
and `outcome` what its single fetch+parse attempt would yield. -/
def get_red_news (s : CacheState) (now : Int) (outcome : FetchOutcome) : GetResult :=
  if cacheFresh s now then
    ⟨s.cachedEvents, s, false⟩
  else
    match outcome with
    | .rateLimited => ⟨s.cachedEvents, s, true⟩
    | .transportError =>
        if s.cachedEvents.isEmpty then ⟨[], s, true⟩
        else ⟨s.cachedEvents, s, true⟩
    | .success none =>
        if s.cachedEvents.isEmpty then ⟨[], s, true⟩
        else ⟨s.cachedEvents, s, true⟩
    | .success (some doc) =>
        let events := normalize now doc
        ⟨events, ⟨some now, events⟩, true⟩

/-- Line 144's window test: `timedelta(minutes=9) < diff <= timedelta(minutes=10)`. -/
def fires (occursAt now : Int) : Bool :=
  decide (9 * 60 < occursAt - now) && decide (occursAt - now ≤ 10 * 60)

/-- One tick of `check_news` (lines 126–161).  `channel` is
`client.get_channel(CHANNEL_ID)`; the tick returns the events alerted (one
`channel.send` each, in cache order) and the cache state it leaves behind. -/
def check_news (s : CacheState) (now : Int) (outcome : FetchOutcome)
    (channel : Option Unit) : List Event × CacheState :=
  match channel with
  | none => ([], s)
  | some _ =>
    let r := get_red_news s now outcome
    (r.events.filter (fun e => fires e.occursAt now), r.state)

/-- The key order of line 183: `key=lambda e: e[0]`. -/
def eventLe (a b : Event) : Prop :=
  a.occursAt ≤ b.occursAt

instance : DecidableRel eventLe := fun a b => Int.decLe a.occursAt b.occursAt

instance : IsTotal Event eventLe := ⟨fun a b => Int.le_total a.occursAt b.occursAt⟩

instance : IsTrans Event eventLe := ⟨fun _ _ _ h h' => Int.le_trans h h'⟩

/-- `sorted(events, key=lambda e: e[0])` (line 183): a stable ascending sort. -/
def sortEvents (events : List Event) : List Event :=
  events.insertionSort eventLe

/-- The `!nextnews` reply payload: `sorted(events, key=lambda e: e[0])[:3]`. -/
def nextNews (events : List Event) : List Event :=
  (sortEvents events).take 3

/-- An incoming Discord message, as far as `on_message` inspects it. -/
structure Message where
  authorIsSelf : Bool
  channelId : Int
  content : String
deriving DecidableEq, Repr

/-- The two shapes of reply `on_message` can send. -/
inductive Reply where
  | noUpcoming
  | upcoming (events : List Event)
deriving DecidableEq, Repr

/-- `on_message` (lines 164–196): the reply sent (if any) and the cache
state after the handler. -/
def on_message (msg : Message) (s : CacheState) (now : Int)
    (outcome : FetchOutcome) : Option Reply × CacheState :=
  if msg.authorIsSelf then (none, s)
  else if msg.channelId ≠ CHANNEL_ID then (none, s)
  else if strStartsWith (strToLower msg.content) "!nextnews" then
    let r := get_red_news s now outcome
    if r.events.isEmpty then (some .noUpcoming, r.state)
    else (some (.upcoming (nextNews r.events)), r.state)
  else (none, s)

/-- A failing fetch+parse attempt: 429, transport error, or parse error. -/
def FetchOutcome.isFailing : FetchOutcome → Bool
  | .rateLimited => true
  | .transportError => true
  | .success none => true
  | .success (some _) => false

/-- The spec's on-demand query contract, modelled from its words:
`nextEvents(n)` is the cached events time-ascending, truncated to the
first `n`. -/
def nextEventsSpec (n : Nat) (events : List Event) : List Event :=
  (sortEvents events).take n

/-- Marker+type test of lines 91–100 as a single predicate: the record is a
VEVENT and its description carries one of the two high-impact markers. -/
def qualifies (c : Component) : Bool :=
  decide (c.name = "VEVENT")
    && (strContains c.description "Impact: High"
        || strContains c.description "High Impact Expected")

theorem cacheFresh_iff (s : CacheState) (now : Int) :
    cacheFresh s now = true ↔
      ∃ t, s.lastFetch = some t ∧ now - t < CACHE_TTL_MINUTES * 60 := by
  cases h : s.lastFetch <;> simp [cacheFresh, h]

/-- C8: if the destination channel cannot be resolved on a tick, that tick
delivers no alerts and terminates without fault, leaving the cache state
untouched (the channel check precedes the cache access). -/
theorem check_news_channel_missing (s : CacheState) (now : Int) (o : FetchOutcome) :
    check_news s now o none = ([], s) := rfl

/-- C9: whatever branch `get_red_news` takes, the sequence it returns equals
the cached-events field of the state it leaves behind. -/
theorem get_red_news_returns_cache (s : CacheState) (now : Int) (o : FetchOutcome) :
    (get_red_news s now o).events = (get_red_news s now o).state.cachedEvents := by
  by_cases hf : cacheFresh s now
  · simp [get_red_news, hf]
  · cases o with
    | rateLimited => simp [get_red_news, hf]
    | transportError =>
        by_cases he : s.cachedEvents.isEmpty
        · simp [get_red_news, hf, he, List.isEmpty_iff.mp he]
        · simp [get_red_news, hf, he]
    | success parsed =>
        cases parsed with
        | none =>
            by_cases he : s.cachedEvents.isEmpty
            · simp [get_red_news, hf, he, List.isEmpty_iff.mp he]
            · simp [get_red_news, hf, he]
        | some doc => simp [get_red_news, hf]

/-- C2: every failing refresh attempt (429, transport error, or parse
error) leaves the cache state identical and returns the stored events
(empty when nothing was ever stored). -/
theorem get_red_news_failure_preserves (s : CacheState) (now : Int) (o : FetchOutcome)
    (h : o.isFailing = true) :
    (get_red_news s now o).events = s.cachedEvents ∧
    (get_red_news s now o).state = s := by
  by_cases hf : cacheFresh s now
  · simp [get_red_news, hf]
  · cases o with
    | rateLimited => simp [get_red_news, hf]
    | transportError =>
        by_cases he : s.cachedEvents.isEmpty
        · simp [get_red_news, hf, he, List.isEmpty_iff.mp he]
        · simp [get_red_news, hf, he]
    | success parsed =>
        cases parsed with
        | none =>
            by_cases he : s.cachedEvents.isEmpty
            · simp [get_red_news, hf, he, List.isEmpty_iff.mp he]
            · simp [get_red_news, hf, he]
        | some doc => simp [FetchOutcome.isFailing] at h

theorem get_red_news_failure_preserves_witness :
    FetchOutcome.isFailing .transportError = true ∧
    (get_red_news ⟨none, [⟨60, "e"⟩]⟩ 0 .transportError).events = [⟨60, "e"⟩] ∧
    (get_red_news ⟨none, [⟨60, "e"⟩]⟩ 0 .transportError).state = ⟨none, [⟨60, "e"⟩]⟩ :=
  ⟨rfl, get_red_news_failure_preserves ⟨none, [⟨60, "e"⟩]⟩ 0 .transportError rfl⟩

/-- C3: a call inside the TTL returns the stored events with no fetch
attempt (the result does not consult the fetch outcome at all); a call with
an expired or absent `LAST_FETCH` reaches the refresh attempt. -/
theorem get_red_news_ttl (s : CacheState) (now : Int) (o : FetchOutcome) :
    (∀ t, s.lastFetch = some t → now - t < CACHE_TTL_MINUTES * 60 →
        get_red_news s now o = ⟨s.cachedEvents, s, false⟩) ∧
    ((s.lastFetch = none ∨ ∃ t, s.lastFetch = some t ∧ CACHE_TTL_MINUTES * 60 ≤ now - t) →
        (get_red_news s now o).attemptedFetch = true) := by
  constructor
  · intro t ht hlt
    have hf : cacheFresh s now = true := by simp [cacheFresh, ht, hlt]
    simp [get_red_news, hf]
  · intro h
    have hf : cacheFresh s now = false := by
      rcases h with h | ⟨t, ht, hge⟩
      · simp [cacheFresh, h]
      · simp [cacheFresh, ht]
        omega
    cases o with
    | rateLimited => simp [get_red_news, hf]
    | transportError =>
        simp only [get_red_news, hf, if_false, Bool.false_eq_true]
        by_cases he : s.cachedEvents.isEmpty <;> simp [he]
    | success parsed =>
        cases parsed with
        | none =>
            simp only [get_red_news, hf, if_false, Bool.false_eq_true]
            by_cases he : s.cachedEvents.isEmpty <;> simp [he]
        | some doc => simp [get_red_news, hf]

theorem get_red_news_ttl_witness :
    ((⟨some 0, [⟨60, "e"⟩]⟩ : CacheState).lastFetch = some 0 ∧
      (100 : Int) - 0 < CACHE_TTL_MINUTES * 60 ∧
      get_red_news ⟨some 0, [⟨60, "e"⟩]⟩ 100 .rateLimited
        = ⟨[⟨60, "e"⟩], ⟨some 0, [⟨60, "e"⟩]⟩, false⟩) ∧
    ((⟨some 0, []⟩ : CacheState).lastFetch = some 0 ∧
      CACHE_TTL_MINUTES * 60 ≤ (900 : Int) - 0 ∧
      (get_red_news ⟨some 0, []⟩ 900 .rateLimited).attemptedFetch = true) :=
  ⟨⟨rfl, by decide,
      (get_red_news_ttl ⟨some 0, [⟨60, "e"⟩]⟩ 100 .rateLimited).1 0 rfl (by decide)⟩,
    ⟨rfl, by decide,
      (get_red_news_ttl ⟨some 0, []⟩ 900 .rateLimited).2 (Or.inr ⟨0, rfl, by decide⟩)⟩⟩

/-- C1: a tick alerts a cached event iff `9 min < occursAt - now ≤ 10 min`;
at the boundaries, a diff of exactly 9:00 does not fire, 9:01 fires,
10:00 fires, and 10:01 does not fire. -/
theorem check_news_window (s : CacheState) (now : Int) (o : FetchOutcome) :
    (∀ e : Event, e ∈ (check_news s now o (some ())).1 ↔
        e ∈ (get_red_news s now o).events ∧
          9 * 60 < e.occursAt - now ∧ e.occursAt - now ≤ 10 * 60) ∧
    (check_news ⟨some now, [⟨now + 540, "E"⟩]⟩ now o (some ())).1 = [] ∧
    (check_news ⟨some now, [⟨now + 541, "E"⟩]⟩ now o (some ())).1 = [⟨now + 541, "E"⟩] ∧
    (check_news ⟨some now, [⟨now + 600, "E"⟩]⟩ now o (some ())).1 = [⟨now + 600, "E"⟩] ∧
    (check_news ⟨some now, [⟨now + 601, "E"⟩]⟩ now o (some ())).1 = [] := by
  have hfresh : ∀ l : List Event, cacheFresh ⟨some now, l⟩ now = true := by
    intro l
    simp [cacheFresh, CACHE_TTL_MINUTES]
  refine ⟨?_, ?_, ?_, ?_, ?_⟩
  · intro e
    simp [check_news, fires, List.mem_filter]
  all_goals
    simp [check_news, get_red_news, hfresh, fires, List.filter_cons]
  all_goals omega

theorem check_news_window_witness :
    (check_news ⟨some 0, [⟨541, "E"⟩]⟩ 0 .rateLimited (some ())).1 = [⟨541, "E"⟩] ∧
    (check_news ⟨some 0, [⟨540, "E"⟩]⟩ 0 .rateLimited (some ())).1 = [] :=
  ⟨(check_news_window ⟨some 0, [⟨541, "E"⟩]⟩ 0 .rateLimited).2.2.1,
    (check_news_window ⟨some 0, [⟨540, "E"⟩]⟩ 0 .rateLimited).2.1⟩

theorem processComponent_some_iff (now : Int) (c : Component) (e : Event) :
    processComponent now c = some e ↔
      c.name = "VEVENT" ∧
      (strContains c.description "Impact: High" = true ∨
        strContains c.description "High Impact Expected" = true) ∧
      now < extractStart c.dtstart ∧
      e = ⟨extractStart c.dtstart, c.summary⟩ := by
  unfold processComponent
  rcases Bool.eq_false_or_eq_true (strContains c.description "Impact: High") with ha | ha <;>
  rcases Bool.eq_false_or_eq_true (strContains c.description "High Impact Expected")
    with hb | hb <;>
  by_cases h1 : c.name = "VEVENT" <;>
  by_cases h3 : now < extractStart c.dtstart <;>
  simp [h1, ha, hb, h3, eq_comm]

theorem processComponent_none_of_not_qualifies (now : Int) (c : Component)
    (h : qualifies c = false) : processComponent now c = none := by
  unfold qualifies at h
  unfold processComponent
  by_cases h1 : c.name = "VEVENT"
  · simp [h1] at h ⊢
    simp [h.1, h.2]
  · simp [h1]

/-- C4: the normalizer emits only events built from VEVENT records whose
description contains one of the two literal high-impact markers; records
lacking both markers (or of another component type) contribute nothing, so
filtering them away first does not change the output. -/
theorem normalize_markers (doc : List Component) (now : Int) :
    (∀ e ∈ normalize now doc, ∃ c ∈ doc, c.name = "VEVENT" ∧
        (strContains c.description "Impact: High" = true ∨
          strContains c.description "High Impact Expected" = true) ∧
        e = ⟨extractStart c.dtstart, c.summary⟩) ∧
    normalize now doc = normalize now (doc.filter qualifies) := by
  constructor
  · intro e he
    rcases List.mem_filterMap.mp he with ⟨c, hc, hsome⟩
    rcases (processComponent_some_iff now c e).mp hsome with ⟨h1, h2, _, h4⟩
    exact ⟨c, hc, h1, h2, h4⟩
  · induction doc with
    | nil => rfl
    | cons c cs ih =>
        by_cases hq : qualifies c
        · simp [normalize, List.filter_cons, hq, List.filterMap_cons] at ih ⊢
          cases hpc : processComponent now c <;> simp [ih]
        · simp only [Bool.not_eq_true] at hq
          simp [normalize, List.filter_cons, hq, List.filterMap_cons,
            processComponent_none_of_not_qualifies now c hq] at ih ⊢
          exact ih

theorem normalize_markers_witness :
    (⟨60, "CPI"⟩ : Event) ∈
        normalize 0 [⟨"VEVENT", "Impact: High", "CPI", .dateTime 0 60 (some 0)⟩] ∧
    (∃ c ∈ [(⟨"VEVENT", "Impact: High", "CPI", .dateTime 0 60 (some 0)⟩ : Component)],
      c.name = "VEVENT" ∧
      (strContains c.description "Impact: High" = true ∨
        strContains c.description "High Impact Expected" = true) ∧
      (⟨60, "CPI"⟩ : Event) = ⟨extractStart c.dtstart, c.summary⟩) ∧
    normalize 0 [⟨"VEVENT", "Impact: High", "CPI", .dateTime 0 60 (some 0)⟩,
        ⟨"VEVENT", "Impact: Low", "PMI", .dateTime 0 120 (some 0)⟩]
      = normalize 0 (List.filter qualifies
          [⟨"VEVENT", "Impact: High", "CPI", .dateTime 0 60 (some 0)⟩,
            ⟨"VEVENT", "Impact: Low", "PMI", .dateTime 0 120 (some 0)⟩]) :=
  ⟨by decide,
    (normalize_markers [⟨"VEVENT", "Impact: High", "CPI", .dateTime 0 60 (some 0)⟩] 0).1
      ⟨60, "CPI"⟩ (by decide),
    (normalize_markers [⟨"VEVENT", "Impact: High", "CPI", .dateTime 0 60 (some 0)⟩,
        ⟨"VEVENT", "Impact: Low", "PMI", .dateTime 0 120 (some 0)⟩] 0).2⟩

/-- C5: the normalizer keeps exactly the qualifying records strictly in the
future: every emitted event has `now < occursAt`, every qualifying record
with a future start is emitted, and a record whose start is at or before
`now` (boundary included) is dropped. -/
theorem normalize_future_only (doc : List Component) (now : Int) :
    (∀ e ∈ normalize now doc, now < e.occursAt) ∧
    (∀ c ∈ doc, qualifies c = true → now < extractStart c.dtstart →
        (⟨extractStart c.dtstart, c.summary⟩ : Event) ∈ normalize now doc) ∧
    (∀ c : Component, extractStart c.dtstart ≤ now → processComponent now c = none) := by
  refine ⟨?_, ?_, ?_⟩
  · intro e he
    rcases List.mem_filterMap.mp he with ⟨c, _, hsome⟩
    rcases (processComponent_some_iff now c e).mp hsome with ⟨_, _, h3, h4⟩
    rw [h4]
    exact h3
  · intro c hc hq hfut
    refine List.mem_filterMap.mpr ⟨c, hc, ?_⟩
    unfold qualifies at hq
    simp only [Bool.and_eq_true, Bool.or_eq_true, decide_eq_true_eq] at hq
    exact (processComponent_some_iff now c _).mpr ⟨hq.1, hq.2, hfut, rfl⟩
  · intro c hle
    unfold processComponent
    by_cases h1 : c.name = "VEVENT" <;> simp [h1]
    intro _
    omega

theorem normalize_future_only_witness :
    (qualifies ⟨"VEVENT", "Impact: High", "CPI", .dateTime 0 60 (some 0)⟩ = true ∧
      (0 : Int) < extractStart (.dateTime 0 60 (some 0)) ∧
      (⟨60, "CPI"⟩ : Event) ∈
        normalize 0 [⟨"VEVENT", "Impact: High", "CPI", .dateTime 0 60 (some 0)⟩]) ∧
    (extractStart (.dateTime 0 0 (some 0)) ≤ (0 : Int) ∧
      processComponent 0 ⟨"VEVENT", "Impact: High", "GDP", .dateTime 0 0 (some 0)⟩ = none) :=
  ⟨⟨by decide, by decide,
      (normalize_future_only [⟨"VEVENT", "Impact: High", "CPI", .dateTime 0 60 (some 0)⟩] 0).2.1
        _ (List.mem_singleton.mpr rfl) (by decide) (by decide)⟩,
    ⟨by decide,
      (normalize_future_only [] 0).2.2
        ⟨"VEVENT", "Impact: High", "GDP", .dateTime 0 0 (some 0)⟩ (by decide)⟩⟩

/-- C7: start-time normalization.  A naive datetime wall reading is
interpreted as UTC (same instant as the identical aware-UTC reading); a
date-only value becomes midnight UTC of that day; an aware value keeps its
time-of-day offset intact and denotes `wall − utcoffset`, so every
normalized `occursAt` is one absolute instant. -/
theorem extractStart_normalization (day tod off : Int) :
    extractStart (.dateTime day tod none) = extractStart (.dateTime day tod (some 0)) ∧
    extractStart (.dateOnly day) = extractStart (.dateTime day 0 (some 0)) ∧
    extractStart (.dateTime day tod (some off)) - extractStart (.dateTime day 0 (some off))
      = tod ∧
    extractStart (.dateTime day tod (some off)) = day * 86400 + tod - off := by
  refine ⟨?_, ?_, ?_, rfl⟩ <;> simp [extractStart]

/-- C6 (counterexample): on the cache holding events at +1h, +3h, +2h (in
that fetch order), the `!nextnews` query replies with all three events
time-sorted — not with the claim's `nextEvents(2) = [+1h, +2h]`, since the
truncation count is hardcoded to 3. -/
theorem on_message_not_nextEvents_two :
    (on_message ⟨false, CHANNEL_ID, "!nextnews"⟩
        ⟨some 0, [⟨3600, "one"⟩, ⟨10800, "three"⟩, ⟨7200, "two"⟩]⟩ 0 .rateLimited).1
      = some (.upcoming [⟨3600, "one"⟩, ⟨7200, "two"⟩, ⟨10800, "three"⟩]) ∧
    ¬ (on_message ⟨false, CHANNEL_ID, "!nextnews"⟩
        ⟨some 0, [⟨3600, "one"⟩, ⟨10800, "three"⟩, ⟨7200, "two"⟩]⟩ 0 .rateLimited).1
      = some (.upcoming (nextEventsSpec 2
          [⟨3600, "one"⟩, ⟨10800, "three"⟩, ⟨7200, "two"⟩])) := by
  constructor <;> decide

/-- C6 (amended): a triggered `!nextnews` query reads the cache through the
same `get_red_news` TTL/stale path as the scheduled tick, leaves exactly the
state that path leaves, and replies with the cached events sorted
time-ascending and truncated to the first 3 (the count is fixed at 3, not a
parameter); on the +1h, +3h, +2h cache it replies [+1h, +2h, +3h]. -/
theorem on_message_next_three (s : CacheState) (now : Int) (o : FetchOutcome) (msg : Message)
    (h1 : msg.authorIsSelf = false) (h2 : msg.channelId = CHANNEL_ID)
    (h3 : strStartsWith (strToLower msg.content) "!nextnews" = true) :
    ((get_red_news s now o).events.isEmpty = false →
      (on_message msg s now o).1
        = some (.upcoming (nextEventsSpec 3 (get_red_news s now o).events))) ∧
    (on_message msg s now o).2 = (get_red_news s now o).state ∧
    List.Sorted eventLe (nextNews (get_red_news s now o).events) ∧
    (sortEvents (get_red_news s now o).events).Perm (get_red_news s now o).events ∧
    (nextNews (get_red_news s now o).events).length
      = min 3 (get_red_news s now o).events.length ∧
    nextNews [⟨3600, "one"⟩, ⟨10800, "three"⟩, ⟨7200, "two"⟩]
      = [⟨3600, "one"⟩, ⟨7200, "two"⟩, ⟨10800, "three"⟩] := by
  refine ⟨?_, ?_, ?_, ?_, ?_, by decide⟩
  · intro hne
    simp [on_message, h1, h2, h3, hne, nextNews, nextEventsSpec]
  · by_cases he : (get_red_news s now o).events.isEmpty <;>
      simp [on_message, h1, h2, h3, he]
  · exact (List.sorted_insertionSort eventLe _).sublist (List.take_sublist 3 _)
  · exact List.perm_insertionSort eventLe _
  · simp [nextNews, sortEvents, List.length_insertionSort]

theorem on_message_next_three_witness :
    ((⟨false, CHANNEL_ID, "!nextnews"⟩ : Message).authorIsSelf = false ∧
      (⟨false, CHANNEL_ID, "!nextnews"⟩ : Message).channelId = CHANNEL_ID ∧
      strStartsWith (strToLower "!nextnews") "!nextnews" = true ∧
      (get_red_news ⟨some 0, [⟨3600, "one"⟩, ⟨10800, "three"⟩, ⟨7200, "two"⟩]⟩
          0 .rateLimited).events.isEmpty = false) ∧
    (on_message ⟨false, CHANNEL_ID, "!nextnews"⟩
        ⟨some 0, [⟨3600, "one"⟩, ⟨10800, "three"⟩, ⟨7200, "two"⟩]⟩ 0 .rateLimited).1
      = some (.upcoming (nextEventsSpec 3 (get_red_news
          ⟨some 0, [⟨3600, "one"⟩, ⟨10800, "three"⟩, ⟨7200, "two"⟩]⟩
          0 .rateLimited).events)) :=
  ⟨⟨rfl, rfl, by decide, by decide⟩,
    (on_message_next_three ⟨some 0, [⟨3600, "one"⟩, ⟨10800, "three"⟩, ⟨7200, "two"⟩]⟩
        0 .rateLimited ⟨false, CHANNEL_ID, "!nextnews"⟩ rfl rfl (by decide)).1 (by decide)⟩

/-- C10: a message triggers the `!nextnews` query exactly when it is not the
bot's own, sits in the alert channel, and its content lowercased starts with
the literal "!nextnews" — a case-insensitive prefix match, so arbitrary
trailing text after the command word still triggers it. -/
theorem on_message_command_match (msg : Message) (s : CacheState) (now : Int)
    (o : FetchOutcome) :
    ((on_message msg s now o).1 ≠ none ↔
      msg.authorIsSelf = false ∧ msg.channelId = CHANNEL_ID ∧
        strStartsWith (strToLower msg.content) "!nextnews" = true) ∧
    (on_message ⟨false, CHANNEL_ID, "!NextNews tomorrow please"⟩ s now o).1 ≠ none := by
  have key : ∀ m : Message, m.authorIsSelf = false → m.channelId = CHANNEL_ID →
      strStartsWith (strToLower m.content) "!nextnews" = true →
      (on_message m s now o).1 ≠ none := by
    intro m hm1 hm2 hm3
    simp only [on_message, hm1, hm2, hm3]
    by_cases he : (get_red_news s now o).events.isEmpty <;> simp [he]
  constructor
  · constructor
    · intro hne
      by_cases hm1 : msg.authorIsSelf
      · simp [on_message, hm1] at hne
      · by_cases hm2 : msg.channelId = CHANNEL_ID
        · by_cases hm3 : strStartsWith (strToLower msg.content) "!nextnews"
          · exact ⟨by simpa using hm1, hm2, hm3⟩
          · simp [on_message, hm1, hm2, hm3] at hne
        · simp [on_message, hm1, hm2] at hne
    · rintro ⟨hm1, hm2, hm3⟩
      exact key msg hm1 hm2 hm3
  · exact key ⟨false, CHANNEL_ID, "!NextNews tomorrow please"⟩ rfl rfl (by decide)

theorem on_message_command_match_witness :
    (on_message ⟨false, CHANNEL_ID, "!NEXTNEWS now"⟩ ⟨some 0, []⟩ 0 .rateLimited).1
      ≠ none :=
  ((on_message_command_match ⟨false, CHANNEL_ID, "!NEXTNEWS now"⟩
      ⟨some 0, []⟩ 0 .rateLimited).1).mpr ⟨rfl, rfl, by decide⟩

example : strContains "abcHigh Impact Expectedxyz" "High Impact Expected" = true := by decide
example : strContains "Impact: Medium" "Impact: High" = false := by decide
example : fires 600 0 = true := by decide
example : fires 540 0 = false := by decide
example : nextNews [⟨3600, "a"⟩, ⟨10800, "c"⟩, ⟨7200, "b"⟩]
    = [⟨3600, "a"⟩, ⟨7200, "b"⟩, ⟨10800, "c"⟩] := by decide

end Bot
